import Mathlib

/-!
Verification development for the grpc-http-bridge repository
(`cmd/bridge/main.go`).  The Go source is shallowly embedded below:
the HTTP handler `handleRPC`, the stub `invokeRPC`, and the two codec
helpers `messageToJSON` (protojson marshal with `EmitUnpopulated: true`)
and `jsonToMessage` (protojson unmarshal with default options) are
translated into executable Lean definitions.  Components the spec
describes but that are absent from the source tree (the Method
Resolver, the Invocation Engine, the Reflection Client's retry) are
modelled from the spec and marked as such in their doc comments.
-/

namespace GrpcBridge

/-- A JSON value.  Numbers are modelled as integers: every numeric
payload appearing in the bridge's claims is integral (protobuf int
fields and enum numbers). -/
inductive Json where
  | null
  | bool (b : Bool)
  | num (n : Int)
  | str (s : String)
  | arr (elems : List Json)
  | obj (fields : List (String × Json))

/-- Look a key up in a JSON object (first match); `none` on non-objects. -/
def jsonLookup (j : Json) (key : String) : Option Json :=
  match j with
  | .obj kvs =>
    match kvs.find? (fun p => p.1 == key) with
    | some p => some p.2
    | none => none
  | _ => none

/-- The body of an HTTP response: `http.Error` writes plain text,
`json.NewEncoder(w).Encode` writes a JSON document. -/
inductive HttpBody where
  | text (s : String)
  | json (j : Json)

/-- An HTTP response as produced by the handler: status code plus body. -/
structure HttpResponse where
  status : Nat
  body : HttpBody

/-- An inbound HTTP POST request as `handleRPC` sees it: the URL path
(`r.URL.Path`) and the outcome of `io.ReadAll(r.Body)`, which either
yields the body bytes (as a string) or fails with an error message. -/
structure HttpRequest where
  path : String
  bodyRead : Except String String

/-- The `Bridge` struct of `main.go`.  The gRPC connection and
reflection client are abstracted as a capability to invoke a backend
method: given the full method path and a JSON request it returns a JSON
response or an error.  `handleRPC` receives the struct but (in the
current source) never exercises this capability. -/
structure Bridge where
  grpcAddr : String
  httpPort : Nat
  backendInvoke : String → Json → Except String Json

/-- `strings.Split(s, "/")` on the character list of `s` (the source
always splits on the single character `/`). -/
def splitOnSlash : List Char → List (List Char)
  | [] => [[]]
  | a :: rest =>
    if a = '/' then [] :: splitOnSlash rest
    else
      match splitOnSlash rest with
      | [] => [[a]]
      | x :: xs => (a :: x) :: xs

/-- `strings.Split(strings.TrimPrefix(path, "/"), "/")` from
`handleRPC`: drop one leading slash if present, then split on `/`. -/
def rpcPathParts (path : String) : List String :=
  let cs :=
    match path.toList with
    | '/' :: rest => rest
    | l => l
  (splitOnSlash cs).map (fun l => String.mk l)

/-- The placeholder JSON document `handleRPC` sends on its success
path, echoing the service, method and raw body (field order follows
the Go map literal). -/
def placeholderBody (service method bodyStr : String) : Json :=
  .obj
    [ ("status", .str "bridge_working"),
      ("note", .str "Full dynamic invocation coming in next iteration"),
      ("request", .obj
        [ ("service", .str service),
          ("method", .str method),
          ("body", .str bodyStr) ]),
      ("next_steps", .arr
        [ .str "1. Resolve service descriptor via reflection",
          .str "2. Parse method input/output types",
          .str "3. Unmarshal JSON → protobuf",
          .str "4. Invoke gRPC method dynamically",
          .str "5. Marshal protobuf → JSON response" ]) ]

/-- `(b *Bridge) handleRPC`: split the path into `{service}/{method}`;
a path of any other shape is answered 400, a body-read failure is
answered 400, and every remaining request is answered 200 with the
placeholder document.  The backend is never contacted. -/
def handleRPC (_b : Bridge) (r : HttpRequest) : HttpResponse :=
  match rpcPathParts r.path with
  | [service, method] =>
    match r.bodyRead with
    | .error e => ⟨400, .text ("Failed to read body: " ++ e)⟩
    | .ok body => ⟨200, .json (placeholderBody service method body)⟩
  | _ => ⟨400, .text "Invalid path format. Use: /\x7bservice\x7d/\x7bmethod\x7d"⟩

/-- `(b *Bridge) invokeRPC`: the dynamic-invocation stub.  For every
input it returns `(nil, fmt.Errorf("not implemented yet"))`. -/
def invokeRPC (_b : Bridge) (_fullMethod : String) (_reqJSON : String) :
    Except String String :=
  .error "not implemented yet"

/-- Look a key up in the JSON body of a response (`none` for text bodies). -/
def jsonBodyLookup (resp : HttpResponse) (key : String) : Option Json :=
  match resp.body with
  | .json j => jsonLookup j key
  | .text _ => none

/-- The kind of a protobuf field.  The bridge handles arbitrary
schemas through `protoreflect`; the model covers the scalar and enum
kinds exercised by the specification's scenarios (string, bool,
integer, enum).  An enum kind carries its value list as
`(name, number)` pairs. -/
inductive FieldKind where
  | kInt
  | kString
  | kBool
  | kEnum (values : List (String × Int))
deriving DecidableEq

/-- A field of a protobuf message: number, proto name, lower-camel JSON
name, kind, and whether the field has explicit presence (proto3
`optional`). -/
structure FieldDescriptor where
  number : Nat
  name : String
  jsonName : String
  kind : FieldKind
  explicitPresence : Bool
deriving DecidableEq

/-- A message descriptor: its ordered field list. -/
structure MessageDescriptor where
  fields : List FieldDescriptor
deriving DecidableEq

/-- A runtime field value, matching a `FieldKind`. -/
inductive Value where
  | vInt (i : Int)
  | vString (s : String)
  | vBool (b : Bool)
  | vEnum (n : Int)
deriving DecidableEq

/-- A `dynamicpb.Message`: a descriptor together with the list of
present fields, keyed by field number.  As in `dynamicpb`, a field
without explicit presence that is set to its zero value is not present. -/
structure DynamicMessage where
  desc : MessageDescriptor
  values : List (Nat × Value)
deriving DecidableEq

/-- The value of a present field, by field number (first match). -/
def lookupValue (m : DynamicMessage) (n : Nat) : Option Value :=
  match m.values.find? (fun p => p.1 == n) with
  | some p => some p.2
  | none => none

/-- The protobuf zero value of a field kind. -/
def zeroValue : FieldKind → Value
  | .kInt => .vInt 0
  | .kString => .vString ""
  | .kBool => .vBool false
  | .kEnum _ => .vEnum 0

/-- Whether a value is the zero value of its kind. -/
def isZero : Value → Bool
  | .vInt i => i == 0
  | .vString s => s == ""
  | .vBool b => b == false
  | .vEnum n => n == 0

/-- Whether a value's shape matches a field kind. -/
def kindMatches : FieldKind → Value → Bool
  | .kInt, .vInt _ => true
  | .kString, .vString _ => true
  | .kBool, .vBool _ => true
  | .kEnum _, .vEnum _ => true
  | _, _ => false

/-- Names of an enum's values are pairwise distinct (true of every
legal protobuf enum; it makes the symbolic encoding of a value
unambiguous). -/
def enumNamesOk (k : FieldKind) : Prop :=
  match k with
  | .kEnum vs => (vs.map (fun pr => pr.1)).Nodup
  | _ => True

instance : (k : FieldKind) → Decidable (enumNamesOk k)
  | .kInt => inferInstanceAs (Decidable True)
  | .kString => inferInstanceAs (Decidable True)
  | .kBool => inferInstanceAs (Decidable True)
  | .kEnum vs =>
    inferInstanceAs (Decidable ((vs.map (fun pr : String × Int => pr.1)).Nodup))

/-- Well-formedness of one present-field slot: a present value's shape
matches the field's kind, and a field without explicit presence is
never present at its zero value (the `dynamicpb` presence
discipline). -/
def presentOk (f : FieldDescriptor) : Option Value → Bool
  | none => true
  | some v => kindMatches f.kind v && (f.explicitPresence || !isZero v)

/-- A decode failure, mirroring the errors `protojson.Unmarshal`
reports: an object key matching no field, a value of the wrong shape
for its field, or a non-object at message position. -/
inductive DecodeError where
  | unknownField (key : String)
  | badValue (key : String)
  | notObject
deriving DecidableEq

/-- Decode one JSON value against a field kind, following the protobuf
JSON mapping `protojson.Unmarshal` implements: integers accepted as
number or decimal string, strings and booleans directly, enums by
case-sensitive symbolic name or by number. -/
def decodeValue : FieldKind → Json → Option Value
  | .kInt, .num i => some (.vInt i)
  | .kInt, .str s => (s.toInt?).map (fun i => .vInt i)
  | .kString, .str s => some (.vString s)
  | .kBool, .bool b => some (.vBool b)
  | .kEnum vs, .str s =>
    (vs.find? (fun p => p.1 == s)).map (fun p => .vEnum p.2)
  | .kEnum _, .num n => some (.vEnum n)
  | _, _ => none

/-- Find the field of a descriptor an object key addresses: protojson
accepts either the proto field name or the JSON (lower-camel) name. -/
def findField (d : MessageDescriptor) (key : String) : Option FieldDescriptor :=
  d.fields.find? (fun f => f.name == key || f.jsonName == key)

/-- Decode the key/value pairs of a JSON object into the present-field
list of a message.  A key matching no field is an `unknownField` error
(protojson's default `DiscardUnknown: false`); a decoded zero value on
a field without explicit presence does not create presence. -/
def unmarshalFields (d : MessageDescriptor) :
    List (String × Json) → Except DecodeError (List (Nat × Value))
  | [] => .ok []
  | (k, j) :: rest =>
    match findField d k with
    | none => .error (.unknownField k)
    | some f =>
      match decodeValue f.kind j with
      | none => .error (.badValue k)
      | some v =>
        match unmarshalFields d rest with
        | .error e => .error e
        | .ok tail =>
          if !f.explicitPresence && isZero v then .ok tail
          else .ok ((f.number, v) :: tail)

/-- `protojson.Unmarshal` with default options, at message level. -/
def protojsonUnmarshal (data : Json) (d : MessageDescriptor) :
    Except DecodeError DynamicMessage :=
  match data with
  | .obj kvs =>
    match unmarshalFields d kvs with
    | .error e => .error e
    | .ok vals => .ok ⟨d, vals⟩
  | _ => .error .notObject

/-- `jsonToMessage` from `main.go`: build a fresh
`dynamicpb.NewMessage(msgDesc)` and `protojson.Unmarshal` the data
into it with default options. -/
def jsonToMessage (data : Json) (msgDesc : MessageDescriptor) :
    Except DecodeError DynamicMessage :=
  protojsonUnmarshal data msgDesc

/-- Encode an enum number: its symbolic name when the enum declares
one, otherwise the number itself (protojson behavior). -/
def enumToJson (vs : List (String × Int)) (n : Int) : Json :=
  match vs.find? (fun p => p.2 == n) with
  | some p => .str p.1
  | none => .num n

/-- Encode one field value as JSON per the protobuf JSON mapping. -/
def valueToJson (k : FieldKind) : Value → Json
  | .vInt i => .num i
  | .vString s => .str s
  | .vBool b => .bool b
  | .vEnum n =>
    match k with
    | .kEnum vs => enumToJson vs n
    | _ => .num n

/-- The `protojson.MarshalOptions` the source configures. -/
structure MarshalOptions where
  indent : String
  emitUnpopulated : Bool
deriving DecidableEq

/-- The JSON entry a field contributes under `protojson.Marshal`: a
present field is emitted with its value; an absent field is emitted at
its zero value only when `EmitUnpopulated` is set and the field does
not have explicit presence (protojson never emits unset explicit
presence fields). -/
def emitField (opts : MarshalOptions) (m : DynamicMessage)
    (f : FieldDescriptor) : Option (String × Json) :=
  match lookupValue m f.number with
  | some v => some (f.jsonName, valueToJson f.kind v)
  | none =>
    if f.explicitPresence then none
    else if opts.emitUnpopulated then
      some (f.jsonName, valueToJson f.kind (zeroValue f.kind))
    else none

/-- `protojson.Marshal`: emit the fields in descriptor order. -/
def protojsonMarshal (opts : MarshalOptions) (m : DynamicMessage) : Json :=
  .obj (m.desc.fields.filterMap (emitField opts m))

/-- `messageToJSON` from `main.go`: `protojson.MarshalOptions` with
`Indent: "  "` and `EmitUnpopulated: true` — unpopulated fields are
always emitted, with no way to configure otherwise. -/
def messageToJSON (m : DynamicMessage) : Json :=
  protojsonMarshal ⟨"  ", true⟩ m

/-- A method descriptor: name, input/output message types, streaming
flags (spec §3). -/
structure MethodDescriptor where
  name : String
  input : MessageDescriptor
  output : MessageDescriptor
  clientStreaming : Bool
  serverStreaming : Bool
deriving DecidableEq

/-- A service descriptor: a named set of methods (spec §3). -/
structure ServiceDescriptor where
  name : String
  methods : List MethodDescriptor
deriving DecidableEq

/-- The Method Resolver's failure modes (spec §4.3). -/
inductive ResolveError where
  | unknownService
  | unknownMethod
  | unsupportedStreaming
deriving DecidableEq

/-- Modelled from the spec: the Method Resolver of §4.3, which is
absent from `src/` (only the `invokeRPC` stub exists).  The Descriptor
Store's known services are abstracted as a list; `Resolve` fails with
`unknownService` when no service matches (case-sensitive), with
`unknownMethod` when the service exists but the method does not, and
with `unsupportedStreaming` when either streaming flag is set. -/
def Resolve (services : List ServiceDescriptor)
    (serviceName methodName : String) : Except ResolveError MethodDescriptor :=
  match services.find? (fun s => s.name == serviceName) with
  | none => .error .unknownService
  | some svc =>
    match svc.methods.find? (fun mth => mth.name == methodName) with
    | none => .error .unknownMethod
    | some mth =>
      if mth.clientStreaming || mth.serverStreaming then
        .error .unsupportedStreaming
      else .ok mth

/-- The Invocation Engine's error kinds (spec §4.5/§7). -/
inductive InvocationKind where
  | notFound
  | unsupported
  | badRequest
  | upstream
deriving DecidableEq

/-- Modelled from the spec: the Invocation Engine of §4.5, absent from
`src/`.  Resolve the method (`UnknownService`/`UnknownMethod` map to
`notFound`, `UnsupportedStreaming` to `unsupported`), decode the
request against the input descriptor (failures map to `badRequest`),
perform the unary call, and encode the response.  The backend is a
function from the full method path and request message to a response
message or an error kind. -/
def InvokeEngine (services : List ServiceDescriptor)
    (backend : String → DynamicMessage → Except InvocationKind DynamicMessage)
    (serviceName methodName : String) (reqJSON : Json) :
    Except InvocationKind Json :=
  match Resolve services serviceName methodName with
  | .error .unknownService => .error .notFound
  | .error .unknownMethod => .error .notFound
  | .error .unsupportedStreaming => .error .unsupported
  | .ok mth =>
    match jsonToMessage reqJSON mth.input with
    | .error _ => .error .badRequest
    | .ok reqMsg =>
      match backend ("/" ++ serviceName ++ "/" ++ methodName) reqMsg with
      | .error e => .error e
      | .ok respMsg => .ok (protojsonMarshal ⟨"", false⟩ respMsg)

/-- The outcome of one attempt of a reflection request on a stream:
either a response or a stream-level failure. -/
inductive ReflOutcome (α : Type) where
  | ok (a : α)
  | streamFailure
deriving DecidableEq

/-- The Reflection Client's surfaced failure (spec §4.1/§7). -/
inductive ReflError where
  | backendUnavailable
deriving DecidableEq

/-- Modelled from the spec: the Reflection Client's stream-level retry
of §4.1, absent from `src/` (the source only constructs the reflection
client).  `attempt i` is the outcome of issuing the request on the
`i`-th (re)opened stream; on a stream failure the request is retried on
a fresh stream exactly once, and a second failure surfaces as
`backendUnavailable`. -/
def reflectWithRetry {α : Type} (attempt : Nat → ReflOutcome α) :
    Except ReflError α :=
  match attempt 0 with
  | .ok a => .ok a
  | .streamFailure =>
    match attempt 1 with
    | .ok a => .ok a
    | .streamFailure => .error .backendUnavailable

/-- The end-to-end scenario's backend (spec §8): service `pkg.Greeter`
with unary `SayHello` echoing `Hello, <name>`. -/
def greeterEcho : String → Json → Except String Json := fun fullMethod req =>
  if fullMethod == "/pkg.Greeter/SayHello" then
    match jsonLookup req "name" with
    | some (.str nm) => .ok (.obj [("greeting", .str ("Hello, " ++ nm))])
    | _ => .error "bad request"
  else .error "unknown method"

/-- A bridge wired to the echo backend of the end-to-end scenario. -/
def echoBridge : Bridge := ⟨"localhost:50051", 8080, greeterEcho⟩

/-- The request of the end-to-end scenario: POST
`/pkg.Greeter/SayHello` with body `{"name":"Ada"}`. -/
def reqAda : HttpRequest :=
  ⟨"/pkg.Greeter/SayHello", .ok "\x7b\"name\":\"Ada\"\x7d"⟩

/-- The error-scenario request: POST `/pkg.Greeter/Nonexistent`. -/
def reqNonexistent : HttpRequest :=
  ⟨"/pkg.Greeter/Nonexistent", .ok "\x7b\x7d"⟩

/-- A descriptor with a single implicit-presence integer field
`count`, used against the encoding and unknown-field claims. -/
def dCount : MessageDescriptor := ⟨[⟨1, "count", "count", .kInt, false⟩]⟩

/-- A message bound to `dCount` with no field present. -/
def mCountUnset : DynamicMessage := ⟨dCount, []⟩

/-- The enum-scenario descriptor (spec §8): one field `status` of enum
type `Status` with values `ACTIVE=0, INACTIVE=1`. -/
def dStatus : MessageDescriptor :=
  ⟨[⟨1, "status", "status", .kEnum [("ACTIVE", 0), ("INACTIVE", 1)], false⟩]⟩

/-- A three-field descriptor exercising the round-trip: an implicit
string, an implicit enum, and an explicit-presence integer. -/
def dRound : MessageDescriptor :=
  ⟨[⟨1, "name", "name", .kString, false⟩,
    ⟨2, "status", "status", .kEnum [("ACTIVE", 0), ("INACTIVE", 1)], false⟩,
    ⟨3, "count", "count", .kInt, true⟩]⟩

/-- A message bound to `dRound`: `name` and `status` populated, the
explicit-presence `count` present at zero. -/
def mRound : DynamicMessage :=
  ⟨dRound, [(1, .vString "Ada"), (2, .vEnum 1), (3, .vInt 0)]⟩

/-- Services for the streaming-rejection scenario: `pkg.Streamer` with
a server-streaming method `Watch`. -/
def demoServices : List ServiceDescriptor :=
  [⟨"pkg.Streamer", [⟨"Watch", dCount, dCount, false, true⟩]⟩]

/-- The JSON entry a field contributes is always keyed by the field's
JSON name. -/
theorem emitField_key (opts : MarshalOptions) (m : DynamicMessage)
    (f : FieldDescriptor) (p : String × Json)
    (h : emitField opts m f = some p) : p.1 = f.jsonName := by
  unfold emitField at h
  split at h
  · cases h; rfl
  · split at h
    · cases h
    · split at h
      · cases h; rfl
      · cases h

/-- In a list of pairs with pairwise-distinct first components, finding
by the first component of a member returns that member. -/
theorem find_name_of_mem (vs : List (String × Int)) (pr : String × Int)
    (hnodup : (vs.map (fun q => q.1)).Nodup) (hm : pr ∈ vs) :
    vs.find? (fun q => q.1 == pr.1) = some pr := by
  induction vs with
  | nil => cases hm
  | cons a rest ih =>
    have hcons : a.1 ∉ rest.map (fun q => q.1) ∧ (rest.map (fun q => q.1)).Nodup := by
      rw [List.map_cons, List.nodup_cons] at hnodup
      exact hnodup
    rcases List.mem_cons.mp hm with h | h
    · subst h
      rw [List.find?_cons_of_pos]
      simp
    · have hne : a.1 ≠ pr.1 := by
        intro he
        exact hcons.1 (he ▸ List.mem_map_of_mem (fun q => q.1) h)
      rw [List.find?_cons_of_neg]
      · exact ih hcons.2 h
      · simp [hne]

/-- The zero value of a kind matches that kind. -/
theorem kindMatches_zero (k : FieldKind) : kindMatches k (zeroValue k) = true := by
  cases k <;> rfl

/-- The zero value of a kind is zero. -/
theorem isZero_zero (k : FieldKind) : isZero (zeroValue k) = true := by
  cases k <;> rfl

/-- Decoding the encoding of a value of the right kind returns the
value (enum names must be unambiguous). -/
theorem decode_valueToJson (k : FieldKind) (v : Value)
    (hk : kindMatches k v = true) (he : enumNamesOk k) :
    decodeValue k (valueToJson k v) = some v := by
  cases k with
  | kInt => cases v <;> simp_all [kindMatches, valueToJson, decodeValue]
  | kString => cases v <;> simp_all [kindMatches, valueToJson, decodeValue]
  | kBool => cases v <;> simp_all [kindMatches, valueToJson, decodeValue]
  | kEnum vs =>
    cases v with
    | vInt i => simp [kindMatches] at hk
    | vString s => simp [kindMatches] at hk
    | vBool b => simp [kindMatches] at hk
    | vEnum n =>
      show decodeValue (.kEnum vs) (enumToJson vs n) = some (.vEnum n)
      unfold enumToJson
      rcases hfind : vs.find? (fun pr => pr.2 == n) with _ | pr
      · rw [hfind]
        rfl
      · rw [hfind]
        have hmem := List.mem_of_find?_eq_some hfind
        have hn : pr.2 = n := by
          have := List.find?_some hfind
          simpa using this
        have hbyname : vs.find? (fun q => q.1 == pr.1) = some pr :=
          find_name_of_mem vs pr (by simpa [enumNamesOk] using he) hmem
        show (vs.find? (fun q => q.1 == pr.1)).map (fun q => Value.vEnum q.2) = _
        rw [hbyname, Option.map_some', hn]

/-- Decoding the object emitted for the fields `fs` (with
`EmitUnpopulated` set, as `messageToJSON` does) succeeds and recovers
exactly the present entries of those fields, in order: present values
decode to themselves, and the zero fill-ins emitted for absent
implicit-presence fields decode to zero and therefore create no
presence. -/
theorem unmarshal_emitted (d : MessageDescriptor) (m : DynamicMessage)
    (fs : List FieldDescriptor)
    (hself : ∀ f ∈ fs, findField d f.jsonName = some f)
    (henum : ∀ f ∈ fs, enumNamesOk f.kind)
    (hvals : ∀ f ∈ fs, presentOk f (lookupValue m f.number) = true) :
    unmarshalFields d (fs.filterMap (emitField ⟨"  ", true⟩ m)) =
      .ok (fs.filterMap (fun f => (lookupValue m f.number).map (fun v => (f.number, v)))) := by
  induction fs with
  | nil => rfl
  | cons f rest ih =>
    have hselff := hself f (List.mem_cons_self f rest)
    have henumf := henum f (List.mem_cons_self f rest)
    have hvalsf := hvals f (List.mem_cons_self f rest)
    have ih' := ih (fun g hg => hself g (List.mem_cons_of_mem f hg))
      (fun g hg => henum g (List.mem_cons_of_mem f hg))
      (fun g hg => hvals g (List.mem_cons_of_mem f hg))
    rcases hlv : lookupValue m f.number with _ | v
    · by_cases hep : f.explicitPresence
      · have hemit : emitField ⟨"  ", true⟩ m f = none := by
          simp [emitField, hlv, hep]
        rw [List.filterMap_cons, List.filterMap_cons, hemit, hlv]
        simpa using ih'
      · have hemit : emitField ⟨"  ", true⟩ m f =
            some (f.jsonName, valueToJson f.kind (zeroValue f.kind)) := by
          simp [emitField, hlv, hep]
        rw [List.filterMap_cons, List.filterMap_cons, hemit, hlv]
        simp only [Option.map_none']
        show unmarshalFields d ((f.jsonName, valueToJson f.kind (zeroValue f.kind)) ::
          rest.filterMap (emitField ⟨"  ", true⟩ m)) = _
        simp only [unmarshalFields, hselff,
          decode_valueToJson f.kind (zeroValue f.kind) (kindMatches_zero f.kind) henumf,
          ih']
        simp [hep, isZero_zero]
    · rw [hlv] at hvalsf
      simp only [presentOk, Bool.and_eq_true] at hvalsf
      obtain ⟨hkm, hor⟩ := hvalsf
      have hemit : emitField ⟨"  ", true⟩ m f = some (f.jsonName, valueToJson f.kind v) := by
        simp [emitField, hlv]
      rw [List.filterMap_cons, List.filterMap_cons, hemit, hlv]
      simp only [Option.map_some']
      show unmarshalFields d ((f.jsonName, valueToJson f.kind v) ::
        rest.filterMap (emitField ⟨"  ", true⟩ m)) = _
      have hcond : (!f.explicitPresence && isZero v) = false := by
        cases hepv : f.explicitPresence with
        | true => simp
        | false =>
          rw [hepv] at hor
          simp only [Bool.false_or, Bool.not_eq_true'] at hor
          simp [hor]
      simp only [unmarshalFields, hselff, decode_valueToJson f.kind v hkm henumf, ih',
        hcond]
      simp

/-- Finding a field number absent from `fs` in the decoded entry list
of `fs` yields nothing. -/
theorem lookup_decoded_none (m : DynamicMessage) (fs : List FieldDescriptor) (n : Nat)
    (hn : n ∉ fs.map (fun g => g.number)) :
    (fs.filterMap (fun g => (lookupValue m g.number).map (fun v => (g.number, v)))).find?
      (fun pr => pr.1 == n) = none := by
  induction fs with
  | nil => rfl
  | cons g rest ih =>
    have hgn : g.number ≠ n := by
      intro he
      exact hn (by simp [he])
    have hrest : n ∉ rest.map (fun g => g.number) := by
      intro hmem
      exact hn (by simp [hmem])
    rw [List.filterMap_cons]
    rcases hlv : lookupValue m g.number with _ | v
    · simpa using ih hrest
    · simp only [Option.map_some']
      rw [List.find?_cons_of_neg]
      · exact ih hrest
      · simp [hgn]

/-- Looking a field of `fs` up in the decoded entry list of `fs`
recovers exactly that field's entry in `m` (field numbers must be
pairwise distinct). -/
theorem lookup_decoded (m : DynamicMessage) (fs : List FieldDescriptor)
    (f : FieldDescriptor) (hf : f ∈ fs)
    (hnum : (fs.map (fun g => g.number)).Nodup) :
    (fs.filterMap (fun g => (lookupValue m g.number).map (fun v => (g.number, v)))).find?
      (fun pr => pr.1 == f.number) =
      (lookupValue m f.number).map (fun v => (f.number, v)) := by
  induction fs with
  | nil => cases hf
  | cons g rest ih =>
    have hcons : g.number ∉ rest.map (fun q => q.number) ∧
        (rest.map (fun q => q.number)).Nodup := by
      rw [List.map_cons, List.nodup_cons] at hnum
      exact hnum
    rcases List.mem_cons.mp hf with h | h
    · subst h
      rw [List.filterMap_cons]
      rcases hlv : lookupValue m f.number with _ | v
      · simp only [Option.map_none']
        exact lookup_decoded_none m rest f.number hcons.1
      · simp only [Option.map_some']
        rw [List.find?_cons_of_pos]
        simp
    · have hgne : g.number ≠ f.number := by
        intro he
        exact hcons.1 (he ▸ List.mem_map_of_mem (fun q => q.number) h)
      rw [List.filterMap_cons]
      rcases hlv : lookupValue m g.number with _ | v
      · simpa using ih h hcons.2
      · simp only [Option.map_some']
        rw [List.find?_cons_of_neg]
        · exact ih h hcons.2
        · simp [hgne]

/-- Looking up the JSON name of a field of `fs` in the object emitted
for `fs` returns that field's emitted entry (JSON names must be
pairwise distinct). -/
theorem emitted_lookup (opts : MarshalOptions) (m : DynamicMessage)
    (fs : List FieldDescriptor) (f : FieldDescriptor) (p : String × Json)
    (hf : f ∈ fs)
    (hnodup : (fs.map (fun g => g.jsonName)).Nodup)
    (hemit : emitField opts m f = some p) :
    (fs.filterMap (emitField opts m)).find? (fun q => q.1 == f.jsonName) = some p := by
  induction fs with
  | nil => cases hf
  | cons g rest ih =>
    have hcons : g.jsonName ∉ rest.map (fun q => q.jsonName) ∧
        (rest.map (fun q => q.jsonName)).Nodup := by
      rw [List.map_cons, List.nodup_cons] at hnodup
      exact hnodup
    rcases List.mem_cons.mp hf with h | h
    · subst h
      rw [List.filterMap_cons, hemit]
      rw [List.find?_cons_of_pos]
      simp [emitField_key opts m f p hemit]
    · have hne : g.jsonName ≠ f.jsonName := by
        intro he
        exact hcons.1 (he ▸ List.mem_map_of_mem (fun q => q.jsonName) h)
      rw [List.filterMap_cons]
      rcases hg : emitField opts m g with _ | pg
      · simpa using ih h hcons.2
      · rw [List.find?_cons_of_neg]
        · exact ih h hcons.2
        · simp [emitField_key opts m g pg hg, hne]

/-- Unfolding of `lookupValue` on a literal message. -/
theorem lookupValue_mk (d : MessageDescriptor) (L : List (Nat × Value)) (n : Nat) :
    lookupValue ⟨d, L⟩ n =
      match L.find? (fun pr => pr.1 == n) with
      | some pr => some pr.2
      | none => none := rfl

/-- Projecting the value back out of an optional `(number, value)`
entry is the identity. -/
theorem match_map_entry (o : Option Value) (n : Nat) :
    (match o.map (fun v => (n, v)) with
      | some pr => some pr.2
      | none => none) = o := by
  cases o <;> rfl

/-- An object containing a key that matches no field of the descriptor
never unmarshals successfully: the traversal aborts with an error (the
unknown key's `unknownField`, or an earlier key's failure). -/
theorem unmarshalFields_unknown_key (d : MessageDescriptor)
    (kvs : List (String × Json)) (k : String) (j : Json)
    (hmem : (k, j) ∈ kvs) (hnone : findField d k = none) :
    ∃ e, unmarshalFields d kvs = .error e := by
  induction kvs with
  | nil => cases hmem
  | cons kj rest ih =>
    rcases kj with ⟨k1, j1⟩
    rcases hff : findField d k1 with _ | f
    · exact ⟨.unknownField k1, by simp only [unmarshalFields, hff]⟩
    · rcases List.mem_cons.mp hmem with h | h
      · cases h
        rw [hnone] at hff
        cases hff
      · obtain ⟨e, he⟩ := ih h
        rcases hdv : decodeValue f.kind j1 with _ | v
        · exact ⟨.badValue k1, by simp only [unmarshalFields, hff, hdv]⟩
        · exact ⟨e, by simp only [unmarshalFields, hff, hdv, he]⟩

/-- C3 (amended): the response encoder `messageToJSON` hard-codes
`EmitUnpopulated: true`, so an absent field without explicit presence
is always emitted at its zero value — zero-valued fields are not
omitted, and no configuration point exists to change this. -/
theorem messageToJSON_emits_unpopulated (m : DynamicMessage) (f : FieldDescriptor)
    (hf : f ∈ m.desc.fields)
    (hnodup : (m.desc.fields.map (fun g => g.jsonName)).Nodup)
    (habs : lookupValue m f.number = none)
    (himp : f.explicitPresence = false) :
    jsonLookup (messageToJSON m) f.jsonName =
      some (valueToJson f.kind (zeroValue f.kind)) := by
  have hemit : emitField ⟨"  ", true⟩ m f =
      some (f.jsonName, valueToJson f.kind (zeroValue f.kind)) := by
    simp [emitField, habs, himp]
  have hfind := emitted_lookup ⟨"  ", true⟩ m m.desc.fields f
    (f.jsonName, valueToJson f.kind (zeroValue f.kind)) hf hnodup hemit
  show jsonLookup (protojsonMarshal ⟨"  ", true⟩ m) f.jsonName = _
  unfold protojsonMarshal
  simp only [jsonLookup, hfind]

/-- C3 witness: `dCount` has the single implicit-presence field
`count`; encoding a message with no field present still emits
`count` at `0`. -/
theorem messageToJSON_emits_unpopulated_witness :
    jsonLookup (messageToJSON mCountUnset) "count" = some (Json.num 0) :=
  messageToJSON_emits_unpopulated mCountUnset ⟨1, "count", "count", .kInt, false⟩
    (by decide) (by decide) rfl rfl

/-- C3 counterexample: the claim says a zero-valued field without
explicit presence is omitted by the default encoding; on the code the
unpopulated `count` field is emitted as `0`, and the output is not the
empty object the claim requires. -/
theorem unpopulated_field_emitted_counterexample :
    messageToJSON mCountUnset = Json.obj [("count", Json.num 0)] ∧
    jsonLookup (messageToJSON mCountUnset) "count" = some (Json.num 0) ∧
    messageToJSON mCountUnset ≠ Json.obj [] := by
  refine ⟨rfl, rfl, ?_⟩
  intro h
  have h2 : jsonLookup (messageToJSON mCountUnset) "count" =
      jsonLookup (Json.obj []) "count" := by rw [h]
  have h3 : (some (Json.num 0) : Option Json) = none := h2
  cases h3

/-- C4: decoding a JSON object containing a key that matches no field
of the descriptor (neither proto name nor JSON name) fails with a
decode error and never succeeds — unknown keys are not silently
dropped (protojson's default rejects unknown fields). -/
theorem jsonToMessage_rejects_unknown_key (d : MessageDescriptor)
    (kvs : List (String × Json)) (k : String) (j : Json)
    (hmem : (k, j) ∈ kvs) (hnone : findField d k = none) :
    (∃ e, jsonToMessage (Json.obj kvs) d = .error e) ∧
    ∀ m', jsonToMessage (Json.obj kvs) d ≠ .ok m' := by
  obtain ⟨e, he⟩ := unmarshalFields_unknown_key d kvs k j hmem hnone
  have hmain : jsonToMessage (Json.obj kvs) d = .error e := by
    simp only [jsonToMessage, protojsonUnmarshal, he]
  refine ⟨⟨e, hmain⟩, fun m' h => ?_⟩
  rw [hmain] at h
  cases h

/-- C4 witness: the spec's concrete probe — an object with the key
`totally_unknown_field` against a descriptor lacking it. -/
theorem jsonToMessage_rejects_unknown_key_witness :
    (∃ e, jsonToMessage (Json.obj [("totally_unknown_field", Json.num 1)]) dCount =
      .error e) ∧
    ∀ m', jsonToMessage (Json.obj [("totally_unknown_field", Json.num 1)]) dCount ≠
      .ok m' :=
  jsonToMessage_rejects_unknown_key dCount _ "totally_unknown_field" (Json.num 1)
    (List.mem_singleton.mpr rfl) rfl

/-- C5: decode after encode is the identity on present fields: for a
well-formed message (values match their fields' kinds, enum names are
unambiguous, field numbers and JSON names resolve uniquely, and
implicit-presence fields are never present at zero), decoding the
encoded JSON succeeds and yields a message whose per-field lookups
agree with the original. -/
theorem decode_encode_roundtrip (d : MessageDescriptor) (m : DynamicMessage)
    (hdesc : m.desc = d)
    (hself : ∀ f ∈ d.fields, findField d f.jsonName = some f)
    (hnum : (d.fields.map (fun f => f.number)).Nodup)
    (henum : ∀ f ∈ d.fields, enumNamesOk f.kind)
    (hvals : ∀ f ∈ d.fields, presentOk f (lookupValue m f.number) = true) :
    ∃ m', jsonToMessage (messageToJSON m) d = .ok m' ∧
      ∀ f ∈ d.fields, lookupValue m' f.number = lookupValue m f.number := by
  refine ⟨⟨d, d.fields.filterMap
      (fun f => (lookupValue m f.number).map (fun v => (f.number, v)))⟩, ?_, ?_⟩
  · show protojsonUnmarshal (protojsonMarshal ⟨"  ", true⟩ m) d = _
    unfold protojsonMarshal
    rw [hdesc]
    simp only [protojsonUnmarshal, unmarshal_emitted d m d.fields hself henum hvals]
  · intro f hf
    rw [lookupValue_mk, lookup_decoded m d.fields f hf hnum]
    exact match_map_entry (lookupValue m f.number) f.number

/-- C5 witness: round-trip on `mRound` (string, enum and
explicit-presence integer fields). -/
theorem decode_encode_roundtrip_witness :
    ∃ m', jsonToMessage (messageToJSON mRound) dRound = .ok m' ∧
      ∀ f ∈ dRound.fields, lookupValue m' f.number = lookupValue mRound f.number :=
  decode_encode_roundtrip dRound mRound rfl (by decide) (by decide) (by decide)
    (by decide)

/-- C6: for an enum-typed field, the symbolic name (case-sensitive)
and the numeric value of the same enum entry both decode, decode to
the same internal value, and produce identical whole-message decodes. -/
theorem enum_accepts_name_and_number (d : MessageDescriptor) (key : String)
    (f : FieldDescriptor) (vs : List (String × Int)) (nm : String) (n : Int)
    (hfind : findField d key = some f)
    (hkind : f.kind = .kEnum vs)
    (hname : vs.find? (fun pr => pr.1 == nm) = some (nm, n)) :
    decodeValue f.kind (Json.str nm) = some (Value.vEnum n) ∧
    decodeValue f.kind (Json.num n) = some (Value.vEnum n) ∧
    jsonToMessage (Json.obj [(key, Json.str nm)]) d =
      jsonToMessage (Json.obj [(key, Json.num n)]) d := by
  have h1 : decodeValue f.kind (Json.str nm) = some (Value.vEnum n) := by
    rw [hkind]
    show (vs.find? (fun q => q.1 == nm)).map (fun q => Value.vEnum q.2) = _
    rw [hname, Option.map_some']
  have h2 : decodeValue f.kind (Json.num n) = some (Value.vEnum n) := by
    rw [hkind]
    rfl
  refine ⟨h1, h2, ?_⟩
  simp only [jsonToMessage, protojsonUnmarshal, unmarshalFields, hfind, h1, h2]

/-- C6 witness: the spec's `Status` enum with `ACTIVE=0, INACTIVE=1`;
the name `INACTIVE` and the number `1` decode identically. -/
theorem enum_accepts_name_and_number_witness :
    decodeValue (FieldKind.kEnum [("ACTIVE", 0), ("INACTIVE", 1)])
      (Json.str "INACTIVE") = some (Value.vEnum 1) ∧
    decodeValue (FieldKind.kEnum [("ACTIVE", 0), ("INACTIVE", 1)])
      (Json.num 1) = some (Value.vEnum 1) ∧
    jsonToMessage (Json.obj [("status", Json.str "INACTIVE")]) dStatus =
      jsonToMessage (Json.obj [("status", Json.num 1)]) dStatus :=
  enum_accepts_name_and_number dStatus "status"
    ⟨1, "status", "status", .kEnum [("ACTIVE", 0), ("INACTIVE", 1)], false⟩
    [("ACTIVE", 0), ("INACTIVE", 1)] "INACTIVE" 1 rfl rfl rfl

/-- C1 counterexample: at the exact end-to-end scenario input — POST
`/pkg.Greeter/SayHello`, body with name `Ada`, echo backend — the
bridge answers 200, but the body is the placeholder document: its
`greeting` key is absent, and the body is not the greeting object the
claim requires. -/
theorem sayHello_not_greeting_counterexample :
    (handleRPC echoBridge reqAda).status = 200 ∧
    jsonBodyLookup (handleRPC echoBridge reqAda) "greeting" = none ∧
    (handleRPC echoBridge reqAda).body ≠
      HttpBody.json (Json.obj [("greeting", Json.str "Hello, Ada")]) := by
  refine ⟨rfl, rfl, ?_⟩
  intro h
  have h2 : HttpBody.json (placeholderBody "pkg.Greeter" "SayHello"
      "\x7b\"name\":\"Ada\"\x7d") =
      HttpBody.json (Json.obj [("greeting", Json.str "Hello, Ada")]) := h
  injection h2 with h3
  have h4 : jsonLookup (placeholderBody "pkg.Greeter" "SayHello"
      "\x7b\"name\":\"Ada\"\x7d") "greeting" =
      jsonLookup (Json.obj [("greeting", Json.str "Hello, Ada")]) "greeting" := by
    rw [h3]
  have h5 : (none : Option Json) = some (Json.str "Hello, Ada") := h4
  cases h5

/-- C1 (amended): a POST to `/pkg.Greeter/SayHello` with the Ada body
is answered 200, but with the fixed placeholder document echoing the
service, method and raw body; the answer is identical for every
backend (the RPC is never performed), and the dynamic-invocation stub
returns only an error. -/
theorem sayHello_answered_with_placeholder (b : Bridge) :
    handleRPC b reqAda =
      ⟨200, .json (placeholderBody "pkg.Greeter" "SayHello"
        "\x7b\"name\":\"Ada\"\x7d")⟩ ∧
    handleRPC b reqAda = handleRPC echoBridge reqAda ∧
    invokeRPC b "/pkg.Greeter/SayHello" "\x7b\"name\":\"Ada\"\x7d" =
      .error "not implemented yet" :=
  ⟨rfl, rfl, rfl⟩

/-- C2 counterexample: POST `/pkg.Greeter/Nonexistent` (service known
to the echo backend, method not) is answered 200 — not a 404-class
status — and the body carries no `kind` key, hence no
`UnknownMethod` error kind; a success-shaped response IS returned. -/
theorem unknown_method_not_404_counterexample :
    (handleRPC echoBridge reqNonexistent).status = 200 ∧
    (handleRPC echoBridge reqNonexistent).status ≠ 404 ∧
    jsonBodyLookup (handleRPC echoBridge reqNonexistent) "kind" = none := by
  refine ⟨rfl, ?_, rfl⟩
  intro h
  have h2 : (200 : Nat) = 404 := h
  cases h2

/-- C2 (amended): a POST addressing an existing service with a
nonexistent method is answered 200 with the placeholder document for
any readable body; no 404/`UnknownMethod` path exists in the handler,
and the RPC is never performed (the answer is backend-independent). -/
theorem unknown_method_answered_200_placeholder (b : Bridge) (bodyStr : String) :
    handleRPC b ⟨"/pkg.Greeter/Nonexistent", .ok bodyStr⟩ =
      ⟨200, .json (placeholderBody "pkg.Greeter" "Nonexistent" bodyStr)⟩ ∧
    handleRPC b ⟨"/pkg.Greeter/Nonexistent", .ok bodyStr⟩ =
      handleRPC echoBridge ⟨"/pkg.Greeter/Nonexistent", .ok bodyStr⟩ :=
  ⟨rfl, rfl⟩

/-- C7: resolving a method whose descriptor has a streaming flag set
fails with `unsupportedStreaming`, and the engine then reports
`unsupported` for every backend whatsoever — the backend is never
invoked. -/
theorem resolve_rejects_streaming (services : List ServiceDescriptor)
    (serviceName methodName : String) (svc : ServiceDescriptor)
    (mth : MethodDescriptor)
    (hs : services.find? (fun s => s.name == serviceName) = some svc)
    (hm : svc.methods.find? (fun x => x.name == methodName) = some mth)
    (hstream : mth.clientStreaming = true ∨ mth.serverStreaming = true) :
    Resolve services serviceName methodName = .error .unsupportedStreaming ∧
    ∀ (backend : String → DynamicMessage → Except InvocationKind DynamicMessage)
      (reqJSON : Json),
      InvokeEngine services backend serviceName methodName reqJSON =
        .error .unsupported := by
  have hres : Resolve services serviceName methodName =
      .error .unsupportedStreaming := by
    simp only [Resolve, hs, hm]
    rcases hstream with h | h <;> simp [h]
  refine ⟨hres, fun backend reqJSON => ?_⟩
  unfold InvokeEngine
  rw [hres]

/-- C7 witness: the server-streaming `Watch` method of
`pkg.Streamer` is rejected and the engine errors for a concrete
backend. -/
theorem resolve_rejects_streaming_witness :
    Resolve demoServices "pkg.Streamer" "Watch" = .error .unsupportedStreaming ∧
    InvokeEngine demoServices (fun _ _ => Except.error InvocationKind.upstream)
      "pkg.Streamer" "Watch" Json.null = .error .unsupported := by
  obtain ⟨h1, h2⟩ := resolve_rejects_streaming demoServices "pkg.Streamer" "Watch"
    ⟨"pkg.Streamer", [⟨"Watch", dCount, dCount, false, true⟩]⟩
    ⟨"Watch", dCount, dCount, false, true⟩ rfl rfl (Or.inr rfl)
  exact ⟨h1, h2 _ _⟩

/-- C8: when the first attempt of a reflection request fails at stream
level, the request is retried exactly once — a second stream failure
surfaces as `backendUnavailable`, a successful retry returns the
response, and the outcome depends only on the first two attempts (no
further retries are consulted). -/
theorem reflection_retries_request_once {α : Type} (attempt : Nat → ReflOutcome α)
    (h0 : attempt 0 = .streamFailure) :
    (attempt 1 = .streamFailure →
      reflectWithRetry attempt = .error .backendUnavailable) ∧
    (∀ a, attempt 1 = .ok a → reflectWithRetry attempt = .ok a) ∧
    (∀ g : Nat → ReflOutcome α, g 0 = attempt 0 → g 1 = attempt 1 →
      reflectWithRetry g = reflectWithRetry attempt) := by
  refine ⟨?_, ?_, ?_⟩
  · intro h1
    unfold reflectWithRetry
    rw [h0, h1]
  · intro a h1
    unfold reflectWithRetry
    rw [h0, h1]
  · intro g hg0 hg1
    unfold reflectWithRetry
    rw [hg0, hg1]

/-- C8 witness: two failing attempts yield `backendUnavailable`; a
failing first attempt with a succeeding retry yields the response. -/
theorem reflection_retries_request_once_witness :
    reflectWithRetry (fun _ => (ReflOutcome.streamFailure : ReflOutcome Nat)) =
      .error .backendUnavailable ∧
    reflectWithRetry (fun i =>
      if i = 0 then ReflOutcome.streamFailure else ReflOutcome.ok 7) = .ok 7 := by
  refine ⟨(reflection_retries_request_once _ rfl).1 rfl, ?_⟩
  exact (reflection_retries_request_once
    (fun i => if i = 0 then ReflOutcome.streamFailure else ReflOutcome.ok 7)
    (by simp)).2.1 7 (by simp)

/-- C9: every request is answered by a returned HTTP response —
`handleRPC` is a total function whose every path, the failure paths
included (malformed path, unreadable body), ends in a 200 or a 400
response value rather than a fault. -/
theorem per_request_failures_yield_responses (b : Bridge) (r : HttpRequest) :
    (handleRPC b r).status = 200 ∨ (handleRPC b r).status = 400 := by
  unfold handleRPC
  split
  · split
    · right
      rfl
    · left
      rfl
  · right
    rfl

/-- C10: for every POST whose path splits into exactly two segments
and whose body is readable, `handleRPC` answers 200 with the fixed
placeholder document (status `bridge_working`, echoing service, method
and raw body), identically for every backend; and `invokeRPC` returns
the non-nil `not implemented yet` error for every input. -/
theorem handleRPC_placeholder_response (b : Bridge) (r : HttpRequest)
    (service mth bodyStr : String)
    (hpath : rpcPathParts r.path = [service, mth])
    (hbody : r.bodyRead = .ok bodyStr) :
    handleRPC b r = ⟨200, .json (placeholderBody service mth bodyStr)⟩ ∧
    jsonBodyLookup (handleRPC b r) "status" = some (.str "bridge_working") ∧
    (∀ b', handleRPC b' r = handleRPC b r) ∧
    (∀ b' fm rj, invokeRPC b' fm rj = .error "not implemented yet") := by
  have hmain : ∀ b' : Bridge,
      handleRPC b' r = ⟨200, .json (placeholderBody service mth bodyStr)⟩ := by
    intro b'
    unfold handleRPC
    rw [hpath, hbody]
  refine ⟨hmain b, ?_, fun b' => (hmain b').trans (hmain b).symm,
    fun b' fm rj => rfl⟩
  rw [hmain b]
  rfl

/-- C10 witness: the placeholder behavior at the concrete SayHello
request. -/
theorem handleRPC_placeholder_response_witness :
    handleRPC echoBridge reqAda =
      ⟨200, .json (placeholderBody "pkg.Greeter" "SayHello"
        "\x7b\"name\":\"Ada\"\x7d")⟩ ∧
    jsonBodyLookup (handleRPC echoBridge reqAda) "status" =
      some (.str "bridge_working") ∧
    invokeRPC echoBridge "/pkg.Greeter/SayHello" "\x7b\"name\":\"Ada\"\x7d" =
      .error "not implemented yet" := by
  obtain ⟨h1, h2, h3, h4⟩ := handleRPC_placeholder_response echoBridge reqAda
    "pkg.Greeter" "SayHello" "\x7b\"name\":\"Ada\"\x7d" rfl rfl
  exact ⟨h1, h2, h4 echoBridge "/pkg.Greeter/SayHello" "\x7b\"name\":\"Ada\"\x7d"⟩

end GrpcBridge
